import Mathlib

/-!
Verification development for the McCache distributed cache
(`src/mccache/__init__.py`).  The Python source is shallowly embedded:
pure fragments become Lean functions, fallible fragments return
`Except String`, Python `dict`s become association lists (which preserve
insertion order, as Python dicts do), and Python `int`s become `Int`/`Nat`.
Where a Python dynamic-typing pitfall is semantically relevant
(an `Enum` member never compares equal to a plain `int`; `struct.pack`
and `range` reject `float` arguments) the embedding models the dynamic
value explicitly rather than silently coercing.
-/

namespace McCache

/-- The `OpCode` enum of the source.  Each member is a 3-character string;
note that the member named `REQ` carries the value `RAK`. -/
inductive OpCode
  | ACK | BYE | DEL | ERR | INI | INQ | NEW | NAK | NOP | PUT | REQ | QRY | RST | UPD
deriving DecidableEq, Repr

/-- Python `OpCode.X.value`: the string payload of the enum member. -/
def OpCode.value : OpCode → String
  | .ACK => "ACK" | .BYE => "BYE" | .DEL => "DEL" | .ERR => "ERR"
  | .INI => "INI" | .INQ => "INQ" | .NEW => "NEW" | .NAK => "NAK"
  | .NOP => "NOP" | .PUT => "PUT" | .REQ => "RAK" | .QRY => "QRY"
  | .RST => "RST" | .UPD => "UPD"

/-- Python `OpCode.X.name`: the identifier of the enum member (what the
source actually enqueues on the outbound queue). -/
def OpCode.name : OpCode → String
  | .ACK => "ACK" | .BYE => "BYE" | .DEL => "DEL" | .ERR => "ERR"
  | .INI => "INI" | .INQ => "INQ" | .NEW => "NEW" | .NAK => "NAK"
  | .NOP => "NOP" | .PUT => "PUT" | .REQ => "REQ" | .QRY => "QRY"
  | .RST => "RST" | .UPD => "UPD"

/-- The `McCacheLevel` enum: coherence posture. -/
inductive McCacheLevel
  | PESSIMISTIC | NEUTRAL | OPTIMISTIC
deriving DecidableEq, Repr

/-- Python `McCacheLevel.X.value` (3 / 5 / 7). -/
def McCacheLevel.value : McCacheLevel → Int
  | .PESSIMISTIC => 3
  | .NEUTRAL => 5
  | .OPTIMISTIC => 7

/-- A Python value that is either a plain `int` or a `McCacheLevel` enum
member.  The source compares `_config.op_level` (an `int`) against enum
members in several places; this type records which kind of value each
operand is. -/
inductive PyVal
  | int (n : Int)
  | enumLevel (l : McCacheLevel)
deriving DecidableEq, Repr

/-- Python `==` between these values.  A plain `Enum` member does not
define equality with integers, so `3 == McCacheLevel.PESSIMISTIC`
evaluates to `False` in Python; only int/int and member/member pairs can
be equal. -/
def pyEq : PyVal → PyVal → Bool
  | .int a, .int b => a == b
  | .enumLevel a, .enumLevel b => a == b
  | _, _ => false

/-- Decidable equality for `Except`, so concrete runs of the fallible
operations can be checked by evaluation. -/
instance {ε α : Type _} [DecidableEq ε] [DecidableEq α] : DecidableEq (Except ε α) := fun a b =>
  match a, b with
  | .error x, .error y =>
      if h : x = y then .isTrue (by rw [h])
      else .isFalse (fun hc => h (by injection hc))
  | .ok x, .ok y =>
      if h : x = y then .isTrue (by rw [h])
      else .isFalse (fun hc => h (by injection hc))
  | .error _, .ok _ => .isFalse (fun hc => Except.noConfusion hc)
  | .ok _, .error _ => .isFalse (fun hc => Except.noConfusion hc)

/-- An operation record placed on the outbound queue `_mcQueue`:
`(opcode, timestamp_ns, namespace, key, value_or_none)`.  Opcodes are
enqueued as strings (`OpCode.X.name`). -/
structure Rec where
  op : String
  tsm : Nat
  nms : Option String
  key : Option Nat
  val : Option Nat
deriving DecidableEq, Repr

/-- The observable state of a `Cache` object (the cachetools copy in the
source): the key/value dict `__data`, the per-key size dict `__size`,
the running tally `__currsize`, the bound `__maxsize` and the McCache
`__name`.  Keys and values are opaque in the source and are modelled as
naturals; dicts are association lists in insertion order. -/
structure PCache where
  data : List (Nat × Nat)
  size : List (Nat × Nat)
  currsize : Int
  maxsize : Int
  name : Option String
deriving DecidableEq, Repr

/-- Python dict assignment `d[k] = v`: overwrite in place when the key is
present (the dict keeps its position), append otherwise. -/
def upsert (l : List (Nat × Nat)) (k v : Nat) : List (Nat × Nat) :=
  if (l.lookup k).isSome then
    l.map (fun p => if p.1 = k then (k, v) else p)
  else
    l ++ [(k, v)]

/-- Python `del d[k]` / `d.pop(k)` on the stored binding. -/
def eraseKey (l : List (Nat × Nat)) (k : Nat) : List (Nat × Nat) :=
  l.filter (fun p => p.1 != k)

/-- An eviction policy: which key `popitem` selects from a non-empty
data dict.  Each cachetools variant (FIFO/LFU/LRU/MRU/RR/TTL/TLRU)
instantiates this differently; all of them select a key that is present. -/
def Policy : Type := List (Nat × Nat) → Nat

/-- `Cache.__delitem__(key, multicast)`: pop the size entry, delete the
data entry, decrement `__currsize`, and, when `multicast` is true,
enqueue a `DEL` operation record.  A missing key raises `KeyError`
before any state is changed. -/
def delitem (now : Nat) (multicast : Bool) (c : PCache) (key : Nat) :
    Except String (PCache × List Rec) :=
  match c.size.lookup key with
  | none => .error "KeyError"
  | some s =>
      match c.data.lookup key with
      | none => .error "KeyError"
      | some _ =>
          .ok ({ c with
                  data := eraseKey c.data key
                  size := eraseKey c.size key
                  currsize := c.currsize - (s : Int) },
               if multicast then [⟨OpCode.DEL.name, now, c.name, some key, none⟩] else [])

/-- `Cache.pop(key, default)`: if the key is contained, read the value and
`del self[key]` — and that `del` statement calls `__delitem__` with
`multicast` at its default `True`, so an eviction-driven pop broadcasts a
`DEL` record.  Otherwise return the default, or raise `KeyError` when no
default was supplied. -/
def popC (now : Nat) (c : PCache) (key : Nat) (default : Option Nat) :
    Except String (Nat × PCache × List Rec) :=
  match c.data.lookup key with
  | some v =>
      match delitem now true c key with
      | .error e => .error e
      | .ok (c2, recs) => .ok (v, c2, recs)
  | none =>
      match default with
      | some d => .ok (d, c, [])
      | none => .error "KeyError"

/-- `popitem()` of the eviction variants: pick the policy-chosen key of a
non-empty cache and `self.pop` it; raise `KeyError` when empty. -/
def popitem (pol : Policy) (now : Nat) (c : PCache) :
    Except String ((Nat × Nat) × PCache × List Rec) :=
  match c.data with
  | [] => .error "KeyError"
  | _ :: _ =>
      match popC now c (pol c.data) none with
      | .error e => .error e
      | .ok (v, c2, recs) => .ok ((pol c.data, v), c2, recs)

/-- The eviction loop of `Cache.__setitem__`:
`while self.__currsize + size > maxsize: self.popitem()`.
Each successful `popitem` removes one key, so `data.length + 1` fuel is
enough to reach either the exit condition or the `KeyError` that Python
raises from `popitem` on an empty cache; the zero-fuel branch is
unreachable when called with that much fuel.  The `DEL` records emitted
by the evictions are accumulated in order. -/
def evictLoop (pol : Policy) (now : Nat) :
    Nat → Int → PCache → List Rec → Except String (PCache × List Rec)
  | 0, _, _, _ => .error "fuel"
  | fuel + 1, size, c, recs =>
      if c.currsize + size > c.maxsize then
        match popitem pol now c with
        | .error e => .error e
        | .ok (_, c2, r) => evictLoop pol now fuel size c2 (recs ++ r)
      else
        .ok (c, recs)

/-- The guard `if key not in self.__data or self.__size[key] < size:` of
`Cache.__setitem__`.  The size dict is only consulted when the key is
present (Python `or` short-circuits). -/
def needEvictCheck (c : PCache) (key : Nat) (size : Int) : Except String Bool :=
  match c.data.lookup key with
  | none => .ok true
  | some _ =>
      match c.size.lookup key with
      | some s => .ok (decide ((s : Int) < size))
      | none => .error "KeyError"

/-- `diffsize = size - self.__size[key] if key in self.__data else size`,
evaluated after the eviction loop. -/
def diffsizeCalc (c : PCache) (key : Nat) (size : Int) : Except String Int :=
  match c.data.lookup key with
  | some _ =>
      match c.size.lookup key with
      | some s => .ok (size - (s : Int))
      | none => .error "KeyError"
  | none => .ok size

/-- The three dict/tally updates that commit the mutation:
`self.__data[key] = value; self.__size[key] = size;
self.__currsize += diffsize`. -/
def commitSet (c : PCache) (key value szNat : Nat) (diffsize : Int) : PCache :=
  { c with
      data := upsert c.data key value
      size := upsert c.size key szNat
      currsize := c.currsize + diffsize }

/-- The operation record that the McCache addition of `Cache.__setitem__`
enqueues after the commit: `PUT` carrying the value when
`op_level == McCacheLevel.OPTIMISTIC.value` (7), `UPD` carrying the value
when it equals `NEUTRAL.value` (5), otherwise `DEL` with no value. -/
def mkSetRecord (op_level : Int) (now : Nat) (name : Option String) (key value : Nat) : Rec :=
  if op_level == McCacheLevel.OPTIMISTIC.value then
    ⟨OpCode.PUT.name, now, name, some key, some value⟩
  else if op_level == McCacheLevel.NEUTRAL.value then
    ⟨OpCode.UPD.name, now, name, some key, some value⟩
  else
    ⟨OpCode.DEL.name, now, name, some key, none⟩

/-- Result of a completed `__setitem__`: the new cache state, the `DEL`
records enqueued by evictions (these happen before the data commit), and
the single posture record enqueued after the commit (absent when the
`multicast` flag is false). -/
structure SetResult where
  cache : PCache
  evictRecs : List Rec
  postRec : Option Rec
deriving DecidableEq, Repr

/-- Exception propagation of a Python statement sequence: run the rest
only when the first step did not raise. -/
def exBind (x : Except String α) (f : α → Except String β) : Except String β :=
  match x with
  | .error e => .error e
  | .ok a => f a

/-- `Cache.__setitem__(key, value, multicast)` with the per-value size
function `gso` (the cache's `getsizeof`) and eviction policy `pol`:
raise `ValueError` for an oversize value before touching any state,
evict while the new value does not fit, commit, then enqueue the posture
record when `multicast` is true. -/
def setitem (gso : Nat → Nat) (pol : Policy) (now : Nat) (op_level : Int)
    (multicast : Bool) (c : PCache) (key value : Nat) : Except String SetResult :=
  if ((gso value : Nat) : Int) > c.maxsize then .error "value too large"
  else
    exBind (needEvictCheck c key (gso value)) (fun needEvict =>
      exBind (if needEvict then evictLoop pol now (c.data.length + 1) (gso value) c []
              else .ok (c, [])) (fun p =>
        exBind (diffsizeCalc p.1 key (gso value)) (fun diffsize =>
          .ok ⟨commitSet p.1 key value (gso value) diffsize,
               p.2,
               if multicast then some (mkSetRecord op_level now c.name key value)
               else none⟩)))

/-- The wire message assembled by `_multicaster`:
`(opcode, timestamp_ns, namespace, key, crc, value)`. -/
structure WireMsg where
  op : String
  tsm : Nat
  nms : Option String
  key : Option Nat
  crc : Option String
  val : Option Nat
deriving DecidableEq, Repr

/-- Lines 1139-1144 of the source: compute the CRC
(`base64.a85encode(hashlib.md5(pickle.dumps(val)).digest())`) when
`op_level >= McCacheLevel.NEUTRAL.value` and the value is not `None`,
then strip the value when `_config.op_level == McCacheLevel.PESSIMISTIC`
— note that this comparison pits the `int` `op_level` against the enum
member itself (not `.value`), which `pyEq` evaluates to `false`.
The external codecs `pickle.dumps`, `md5` and `a85encode` are opaque
library calls and are passed in as parameters. -/
def buildWireMsg (op_level : Int) (pickleVal : Nat → List Nat)
    (md5 : List Nat → List Nat) (a85 : List Nat → String) (r : Rec) : WireMsg :=
  let crc : Option String :=
    if McCacheLevel.NEUTRAL.value ≤ op_level then
      match r.val with
      | some v => some (a85 (md5 (pickleVal v)))
      | none => none
    else none
  let val : Option Nat :=
    if pyEq (.int op_level) (.enumLevel .PESSIMISTIC) then none else r.val
  ⟨r.op, r.tsm, r.nms, r.key, crc, val⟩

/-- A Python number that is either an `int` or a `float`.  `struct.pack`
with an integer format code and the builtin `range` both raise when
handed a `float`, even a whole-valued one like `2.0`. -/
inductive PyNum
  | int (n : Int)
  | float (q : ℚ)
deriving DecidableEq, Repr

/-- Python `x += 1` on a number keeps its kind. -/
def PyNum.add1 : PyNum → PyNum
  | .int n => .int (n + 1)
  | .float q => .float (q + 1)

/-- Python true division `a / b` on two ints always yields a `float`. -/
def pyTrueDiv (a b : Int) : PyNum :=
  .float ((a : ℚ) / (b : ℚ))

/-- One `B`-formatted argument of `struct.pack`: must be an `int` in
`[0, 256)`; a `float` raises `struct.error`. -/
def pyPackB (x : PyNum) : Except String Nat :=
  match x with
  | .int n => if 0 ≤ n ∧ n < 256 then .ok n.toNat else .error "struct.error"
  | .float _ => .error "struct.error: required argument is not an integer"

/-- `struct.pack('@BBBB', a, b, c, d)`: four unsigned bytes. -/
def pyPack4 (a b c d : PyNum) : Except String (List Nat) :=
  match pyPackB a with
  | .error e => .error e
  | .ok a2 =>
      match pyPackB b with
      | .error e => .error e
      | .ok b2 =>
          match pyPackB c with
          | .error e => .error e
          | .ok c2 =>
              match pyPackB d with
              | .error e => .error e
              | .ok d2 => .ok [a2, b2, c2, d2]

/-- Python `range(lo, hi)`: both bounds must be ints; a `float` bound
raises `TypeError`.  The resulting range object is modelled by its
bounds. -/
def pyRange (lo hi : PyNum) : Except String (Int × Int) :=
  match lo, hi with
  | .int a, .int b => .ok (a, b)
  | _, _ => .error "TypeError: float object cannot be interpreted as an integer"

/-- The offsets `range(0, len(bdata), frg_size)` of the fragmentation
comprehension (`frg_size > 0`). -/
def chunkOffsets (len step : Nat) : List Nat :=
  (List.range ((len + step - 1) / step)).map (fun i => i * step)

/-- The magic byte of the fragment header. -/
def MAGIC_BYTE : Nat := 246

/-- A per-member entry of a pending-ack value.  `unack` holds the Python
set literal `{range(0, fragmnts)}` — a set containing a single range
object — and `tries` holds the set literal `{1, 2}` (the docstring says
three tries). -/
structure PendingMember where
  unack : List (Int × Int)
  tries : List Nat
deriving DecidableEq, Repr

/-- A pending-ack table value: the ordered fragment list and the
per-member bookkeeping. -/
structure PendingValue where
  value : List (List Nat)
  members : List (String × PendingMember)
deriving DecidableEq, Repr

/-- `_make_pending_value(bdata, frame_size, members)`.  Faithful to the
source: `frg_size = frame_size - 4`;
`fragmnts = len(bdata) / frg_size` is a Python *true division*, so it is
a `float`; the header `pack('@BBBB', MAGIC_BYTE, 1, i, fragmnts)` is
attempted for every chunk offset `i` (the raw byte offset, not a
sequence index), and `{range(0, fragmnts)}` is attempted for every
member; either raises on the `float` fragment count. -/
def make_pending_value (bdata : List Nat) (frame_size : Nat) (members : List String) :
    Except String PendingValue :=
  let frg_size := frame_size - 4
  if frg_size = 0 then .error "ValueError: range step must not be zero"
  else
    let fragmnts0 : PyNum := pyTrueDiv (bdata.length : Int) (frg_size : Int)
    let fragmnts : PyNum :=
      if bdata.length % frg_size ≠ 0 then fragmnts0.add1 else fragmnts0
    match (chunkOffsets bdata.length frg_size).mapM
        (fun (i : Nat) =>
          (match pyPack4 (.int (MAGIC_BYTE : Int)) (.int 1) (.int (Int.ofNat i)) fragmnts with
           | .error e => .error e
           | .ok hdr => .ok (hdr ++ ((bdata.drop i).take frg_size)) :
            Except String (List Nat))) with
    | .error e => .error e
    | .ok value =>
        match members.mapM
            (fun ip =>
              (match pyRange (.int 0) fragmnts with
               | .error e => .error e
               | .ok r => .ok (ip, PendingMember.mk [r] [1, 2]) :
                Except String (String × PendingMember))) with
        | .error e => .error e
        | .ok mems => .ok ⟨value, mems⟩

/-- A pending-ack table key `(namespace, key, timestamp)`. -/
abbrev PendKey : Type := Option String × Option Nat × Nat

/-- One loop body of `_multicaster` after dequeuing `r`, up to the calls
that touch the socket: build the wire message, serialise it
(`pickle.dumps`, opaque, passed as `pickleMsg`), install the pending-ack
entry when `op_level <= McCacheLevel.PESSIMISTIC.value`, the opcode is
not `ACK` and the key is not already pending, and hand the serialised
bytes to `_send_fragment`.  Any raise inside propagates to the loop's
`except` clause. -/
def multicasterBody (op_level : Int) (mtu : Nat)
    (pickleVal : Nat → List Nat) (md5 : List Nat → List Nat) (a85 : List Nat → String)
    (pickleMsg : WireMsg → List Nat)
    (members : List String) (pending : List (PendKey × PendingValue)) (r : Rec) :
    Except String (List (PendKey × PendingValue) × List Nat) :=
  let msg := buildWireMsg op_level pickleVal md5 a85 r
  let pkl := pickleMsg msg
  let key : PendKey := (r.nms, r.key, r.tsm)
  let installed : Except String (List (PendKey × PendingValue)) :=
    if op_level ≤ McCacheLevel.PESSIMISTIC.value then
      if r.op ≠ OpCode.ACK.value ∧ (pending.lookup key).isNone then
        match make_pending_value pkl mtu members with
        | .error e => .error e
        | .ok pv => .ok (pending ++ [(key, pv)])
      else .ok pending
    else .ok pending
  match installed with
  | .error e => .error e
  | .ok pending2 => .ok (pending2, pkl)

/-- Observable outcome of one multicaster iteration: the pending table,
the payloads handed to `_send_fragment`, and whether the broad `except`
clause caught an exception (in which case it only logs and nothing was
sent or installed). -/
structure StepOut where
  pending : List (PendKey × PendingValue)
  sends : List (List Nat)
  errored : Bool
deriving DecidableEq, Repr

/-- One `_multicaster` iteration with the `try/except` wrapper. -/
def multicasterStep (op_level : Int) (mtu : Nat)
    (pickleVal : Nat → List Nat) (md5 : List Nat → List Nat) (a85 : List Nat → String)
    (pickleMsg : WireMsg → List Nat)
    (members : List String) (pending : List (PendKey × PendingValue)) (r : Rec) : StepOut :=
  match multicasterBody op_level mtu pickleVal md5 a85 pickleMsg members pending r with
  | .ok (pending2, pkl) => ⟨pending2, [pkl], false⟩
  | .error _ => ⟨pending, [], true⟩

/-- `_send_fragment(sock, fragment)`: each element is one `sendto` call,
paired with the `time.sleep` (in whole milliseconds) executed
immediately before it.  Two unconditional sends; a third after a 1 ms
sleep when `McCacheLevel.NEUTRAL.value >= op_level`; a fourth after a
3 ms sleep when `McCacheLevel.PESSIMISTIC.value >= op_level`. -/
def send_fragment (op_level : Int) (fragment : List Nat) : List (Nat × List Nat) :=
  [(0, fragment), (0, fragment)]
    ++ (if McCacheLevel.NEUTRAL.value ≥ op_level then [(1, fragment)] else [])
    ++ (if McCacheLevel.PESSIMISTIC.value ≥ op_level then [(3, fragment)] else [])

/-- Which cachetools variant a registry entry is. -/
inductive CacheVariant
  | TLRU | LRU | Other
deriving DecidableEq, Repr

/-- A cache object as seen by the registry.  The `len` field models
Python `len(cache)` — the number of live entries of the mapping — which
drives the object's truthiness (`Cache` inherits `__len__` from
`MutableMapping` and defines no `__bool__`, so an empty cache is falsy). -/
structure CacheInst where
  variant : CacheVariant
  maxsize : Int
  name : Option String
  len : Nat
deriving DecidableEq, Repr

/-- Python dict assignment for the string-keyed registry
(`_mcCacheDict[name] = cache`): replace in place or append. -/
def upsertReg (l : List (String × CacheInst)) (k : String) (v : CacheInst) :
    List (String × CacheInst) :=
  if (l.lookup k).isSome then
    l.map (fun p => if p.1 = k then (k, v) else p)
  else
    l ++ [(k, v)]

/-- The creation arm of `get_cache` (the `if not cache:` branch): build
the default cache — `TLRUCache` when
`_config.op_level == McCacheLevel.PESSIMISTIC`, an int-vs-enum-member
comparison that `pyEq` evaluates to `false`, so an `LRUCache` (empty,
unnamed) is always constructed — store it in the registry (dict
assignment, replacing any existing entry under the same name), and set
its name since a fresh cache is unnamed. -/
def createCache (op_level : Int) (max_size : Int)
    (reg : List (String × CacheInst)) (nm : String) :
    CacheInst × List (String × CacheInst) :=
  let c0 : CacheInst :=
    if pyEq (.int op_level) (.enumLevel .PESSIMISTIC) then
      ⟨.TLRU, max_size, none, 0⟩
    else
      ⟨.LRU, max_size, none, 0⟩
  let c1 := if c0.name = none then { c0 with name := some nm } else c0
  (c1, upsertReg reg nm c1)

/-- `get_cache(name, cache)` under the registry lock.  `name` falls back
to `'default'` when `None` or empty (`if name:` is Python truthiness;
the string/instance type checks are omitted — the embedding is typed).
A registered entry overrides the caller-supplied instance; then
`if not cache:` again tests truthiness, so `None` *and any empty cache*
take the creation arm: a registered-but-empty cache is replaced by a
fresh cache rather than returned, and an empty caller-supplied instance
is likewise discarded.  Only a non-empty cache is returned as-is. -/
def get_cache (op_level : Int) (max_size : Int)
    (reg : List (String × CacheInst)) (name : Option String) (inst : Option CacheInst) :
    CacheInst × List (String × CacheInst) :=
  let nm := match name with
    | some n => if n.length = 0 then "default" else n
    | none => "default"
  let cache : Option CacheInst :=
    match reg.lookup nm with
    | some c => some c
    | none => inst
  match cache with
  | some c =>
      if c.len = 0 then createCache op_level max_size reg nm
      else (c, reg)
  | none => createCache op_level max_size reg nm

/-- Python `s.split(sep)` for a single-character separator, on the
character list of the string (at least one piece is always returned). -/
def splitOnChar (sep : Char) : List Char → List (List Char)
  | [] => [[]]
  | c :: t =>
      let r := splitOnChar sep t
      if c == sep then [] :: r
      else
        match r with
        | [] => [[c]]
        | h :: t2 => (c :: h) :: t2

/-- The numeric value of a decimal digit character. -/
def digitVal (c : Char) : Option Nat :=
  if c.isDigit then some (c.toNat - 48) else none

/-- Helper for `parseNat`: fold decimal digits left to right. -/
def parseNatAux : List Char → Nat → Option Nat
  | [], acc => some acc
  | c :: t, acc =>
      match digitVal c with
      | none => none
      | some d => parseNatAux t (acc * 10 + d)

/-- Python `int(s)` restricted to plain decimal strings (the forms the
multicast-address validation feeds it); any other string raises
`ValueError`, modelled as `none`. -/
def parseNat (l : List Char) : Option Nat :=
  match l with
  | [] => none
  | _ => parseNatAux l 0

/-- An element of one of the Python set literals of `_mcIPAdd`: either a
plain `int` or a `range` object that slipped in through
`{...}.union({range(a, b)})` — which adds the range *object* as a single
element instead of its members. -/
inductive PySetElem
  | int (n : Nat)
  | rangeObj (lo hi : Nat)
deriving DecidableEq, Repr

/-- Python `x in s` for an int `x` and such a set: `int == range object`
is `False`, so only the plain-int elements can match. -/
def pyIntInSet (x : Nat) (s : List PySetElem) : Bool :=
  s.any (fun e =>
    match e with
    | .int n => x == n
    | .rangeObj _ _ => false)

/-- The innermost level of `_mcIPAdd[224][0]`: third octet to the set of
allowed fourth octets, transcribed from the source including the
misplaced `range` objects. -/
def mcIPAdd_level3 : List (Nat × List PySetElem) :=
  [ (0, [.int 3, .int 26, .int 255, .rangeObj 69 101, .rangeObj 122 150, .rangeObj 151 251])
  , (2, [.int 0, .rangeObj 18 64])
  , (6, [.rangeObj 145 161, .rangeObj 152 192])
  , (12, [.rangeObj 136 256])
  , (17, [.rangeObj 128 256])
  , (20, [.rangeObj 208 256])
  , (21, [.rangeObj 128 256])
  , (23, [.rangeObj 182 192])
  , (245, [.rangeObj 0 256]) ]

/-- The four-level membership test
`_ip[0] in _mcIPAdd and _ip[1] in _mcIPAdd[_ip[0]] and ...`:
the outer dicts have the single keys 224 and 0. -/
def mcIPAdd_ok (ip : List Nat) : Bool :=
  match ip with
  | [a, b, c, d] =>
      a == 224 && b == 0 &&
        (match mcIPAdd_level3.lookup c with
         | some s => pyIntInSet d s
         | none => false)
  | _ => false

/-- The effective multicast configuration after module initialisation:
group address, port, and whether the `ValueError` handler logged its
`Defaulting to IP` warning. -/
structure NetConfig where
  mc_gip : String
  mc_port : Nat
  warned : Bool
deriving DecidableEq, Repr

/-- The validation body once `mc_gip` (and possibly `mc_port`) have been
assigned from the environment: parse the dotted quad, raise unless it is
a well-formed `224.x.x.x` address found in `_mcIPAdd`.  Every raise is
caught by the `except ValueError` handler, which logs a warning — but
`_config.mc_gip` keeps the already-assigned environment value on every
path. -/
def validateGip (gip : List Char) (port : Nat) : NetConfig :=
  match (splitOnChar '.' gip).mapM parseNat with
  | none => ⟨String.mk gip, port, true⟩
  | some ip =>
      if ip.length ≠ 4 ∨ ip.headD 0 ≠ 224 then ⟨String.mk gip, port, true⟩
      else if mcIPAdd_ok ip then ⟨String.mk gip, port, false⟩
      else ⟨String.mk gip, port, true⟩

/-- The `MCCACHE_MULTICAST_IP` block of module initialisation (source
lines 845-871): absent variable keeps the defaults `224.0.0.3:4000`;
otherwise the address (and optional `:port`) are assigned into the
config *before* validation, and a failed validation only logs. -/
def validateMulticastIP (env : Option String) : NetConfig :=
  match env with
  | none => ⟨"224.0.0.3", 4000, false⟩
  | some e =>
      match splitOnChar ':' e.data with
      | [] => ⟨"224.0.0.3", 4000, false⟩
      | [g] => validateGip g 4000
      | g :: p :: _ =>
          match parseNat p with
          | none => ⟨String.mk g, 4000, true⟩
          | some port => validateGip g port

/-- `SRC_IP_ADD`, the local identity string `ipv4:pid`. -/
def SRC_IP_ADD (ipv4 : String) (pid : Nat) : String :=
  ipv4 ++ ":" ++ toString pid

/-- Boolean list-prefix test (the primitive under Python substring
search). -/
def isPfx : List Char → List Char → Bool
  | [], _ => true
  | _ :: _, [] => false
  | a :: as, b :: bs => a == b && isPfx as bs

/-- First index at which `sub` occurs in the second list, if any. -/
def findSub (sub : List Char) : List Char → Option Nat
  | [] => if isPfx sub [] then some 0 else none
  | c :: t =>
      if isPfx sub (c :: t) then some 0
      else (findSub sub t).map (fun i => i + 1)

/-- Python `s.find(sub)`: lowest index of an occurrence, `-1` when there
is none. -/
def pyFind (s sub : String) : Int :=
  match findSub sub.data s.data with
  | some i => (i : Int)
  | none => -1

/-- Outcome of one `_listener` iteration: the membership table, and the
`_decode_message(msg, sender)` call when one is made.  All cache
mutation and `ACK` enqueueing of the inbound engine happen inside that
call; when it is `none`, no cache is touched and nothing is enqueued. -/
structure ListenOut where
  members : List (String × Nat)
  dispatch : Option (WireMsg × String)
deriving DecidableEq, Repr

/-- One `_listener` iteration after a datagram from `frm` deserialises
to `msg`: the message is handled only when
`SRC_IP_ADD.find(frm) == -1`, i.e. when the sender string does *not*
occur as a substring of the local identity; a handled message first adds
the sender to the membership table when absent, then is dispatched. -/
def listenerStep (src : String) (members : List (String × Nat)) (msg : WireMsg)
    (frm : String) : ListenOut :=
  if pyFind src frm = -1 then
    let members2 :=
      if (members.lookup frm).isSome then members else members ++ [(frm, msg.tsm)]
    ⟨members2, some (msg, frm)⟩
  else
    ⟨members, none⟩

/-! Helper lemmas about the cache operations. -/

theorem delitem_ok (now : Nat) (mc : Bool) (c : PCache) (k : Nat)
    (p : PCache × List Rec) (h : delitem now mc c k = .ok p) :
    p.1.maxsize = c.maxsize ∧ p.1.currsize ≤ c.currsize := by
  unfold delitem at h
  cases hs : c.size.lookup k with
  | none => rw [hs] at h; exact absurd h (by simp)
  | some s =>
      rw [hs] at h
      cases hd : c.data.lookup k with
      | none => rw [hd] at h; exact absurd h (by simp)
      | some v =>
          rw [hd] at h
          cases h
          refine ⟨rfl, ?_⟩
          exact sub_le_self c.currsize (Int.natCast_nonneg s)

theorem popC_ok (now : Nat) (c : PCache) (k : Nat) (dflt : Option Nat)
    (p : Nat × PCache × List Rec) (h : popC now c k dflt = .ok p) :
    p.2.1.maxsize = c.maxsize ∧ p.2.1.currsize ≤ c.currsize := by
  unfold popC at h
  cases hd : c.data.lookup k with
  | some v =>
      rw [hd] at h
      cases hdel : delitem now true c k with
      | error e => rw [hdel] at h; exact absurd h (by simp)
      | ok q =>
          obtain ⟨c2, recs⟩ := q
          rw [hdel] at h
          cases h
          exact delitem_ok now true c k (c2, recs) hdel
  | none =>
      rw [hd] at h
      cases dflt with
      | some d => cases h; exact ⟨rfl, le_refl _⟩
      | none => exact absurd h (by simp)

theorem popitem_ok (pol : Policy) (now : Nat) (c : PCache)
    (q : (Nat × Nat) × PCache × List Rec) (h : popitem pol now c = .ok q) :
    q.2.1.maxsize = c.maxsize ∧ q.2.1.currsize ≤ c.currsize := by
  unfold popitem at h
  cases hc : c.data with
  | nil => rw [hc] at h; exact absurd h (by simp)
  | cons a t =>
      rw [hc] at h
      cases hp : popC now c (pol (a :: t)) none with
      | error e => rw [hp] at h; exact absurd h (by simp)
      | ok p =>
          obtain ⟨v, c2, recs⟩ := p
          rw [hp] at h
          cases h
          exact popC_ok now c (pol (a :: t)) none (v, c2, recs) hp

theorem evictLoop_ok (pol : Policy) (now : Nat) (fuel : Nat) :
    ∀ (size : Int) (c : PCache) (recs : List Rec) (out : PCache × List Rec),
      evictLoop pol now fuel size c recs = .ok out →
      out.1.currsize + size ≤ out.1.maxsize ∧ out.1.maxsize = c.maxsize := by
  induction fuel with
  | zero =>
      intro size c recs out h
      exact absurd h (by simp [evictLoop])
  | succ n ih =>
      intro size c recs out h
      rw [evictLoop] at h
      split at h
      · rename_i hg
        cases hp : popitem pol now c with
        | error e => rw [hp] at h; exact absurd h (by simp)
        | ok q =>
            obtain ⟨kv, c2, r⟩ := q
            rw [hp] at h
            have h2 := ih size c2 (recs ++ r) out h
            have h3 := popitem_ok pol now c (kv, c2, r) hp
            exact ⟨h2.1, h2.2.trans h3.1⟩
      · rename_i hg
        cases h
        exact ⟨le_of_not_lt hg, rfl⟩

theorem diffsizeCalc_le (c : PCache) (k : Nat) (size d : Int)
    (h : diffsizeCalc c k size = .ok d) : d ≤ size := by
  unfold diffsizeCalc at h
  cases hd : c.data.lookup k with
  | none => rw [hd] at h; cases h; exact le_refl _
  | some v =>
      rw [hd] at h
      cases hs : c.size.lookup k with
      | none => rw [hs] at h; exact absurd h (by simp)
      | some s =>
          rw [hs] at h
          cases h
          have h0 : (0 : Int) ≤ (s : Int) := Int.natCast_nonneg s
          omega

theorem diffsize_nonpos_of_noEvict (c : PCache) (k : Nat) (size d : Int)
    (hne : needEvictCheck c k size = .ok false)
    (hdf : diffsizeCalc c k size = .ok d) : d ≤ 0 := by
  unfold needEvictCheck at hne
  unfold diffsizeCalc at hdf
  cases hd : c.data.lookup k with
  | none => rw [hd] at hne; exact absurd hne (by simp)
  | some v =>
      rw [hd] at hne
      rw [hd] at hdf
      cases hs : c.size.lookup k with
      | none => rw [hs] at hne; exact absurd hne (by simp)
      | some s =>
          rw [hs] at hne
          rw [hs] at hdf
          cases hdf
          have hlt : decide ((s : Int) < size) = false := by
            injection hne
          have := of_decide_eq_false hlt
          omega

theorem setitem_ok_bound (gso : Nat → Nat) (pol : Policy) (now : Nat) (op_level : Int)
    (multicast : Bool) (c : PCache) (key value : Nat) (r : SetResult)
    (hpre : c.currsize ≤ c.maxsize)
    (h : setitem gso pol now op_level multicast c key value = .ok r) :
    r.cache.currsize ≤ r.cache.maxsize := by
  unfold setitem at h
  by_cases hbig : ((gso value : Nat) : Int) > c.maxsize
  · rw [if_pos hbig] at h
    exact absurd h (by simp)
  · rw [if_neg hbig] at h
    cases hne : needEvictCheck c key (gso value) with
    | error e =>
        rw [hne] at h
        simp only [exBind] at h
        exact absurd h (by simp)
    | ok b =>
        rw [hne] at h
        simp only [exBind] at h
        by_cases hb : b = true
        · rw [if_pos hb] at h
          cases hev : evictLoop pol now (c.data.length + 1) ((gso value : Nat) : Int) c [] with
          | error e =>
              rw [hev] at h
              simp only [exBind] at h
              exact absurd h (by simp)
          | ok q =>
              rw [hev] at h
              simp only [exBind] at h
              cases hdf : diffsizeCalc q.1 key (gso value) with
              | error e =>
                  rw [hdf] at h
                  simp only [exBind] at h
                  exact absurd h (by simp)
              | ok d =>
                  rw [hdf] at h
                  simp only [exBind, Except.ok.injEq] at h
                  rw [← h]
                  show q.1.currsize + d ≤ q.1.maxsize
                  have h1 := evictLoop_ok pol now (c.data.length + 1)
                    ((gso value : Nat) : Int) c [] q hev
                  have h2 := diffsizeCalc_le q.1 key ((gso value : Nat) : Int) d hdf
                  have := h1.1
                  omega
        · rw [if_neg hb] at h
          simp only [exBind] at h
          cases hdf : diffsizeCalc c key (gso value) with
          | error e =>
              rw [hdf] at h
              simp only [exBind] at h
              exact absurd h (by simp)
          | ok d =>
              rw [hdf] at h
              simp only [exBind, Except.ok.injEq] at h
              rw [← h]
              show c.currsize + d ≤ c.maxsize
              have hb2 : b = false := by
                cases b
                · rfl
                · exact absurd rfl hb
              rw [hb2] at hne
              have h2 := diffsize_nonpos_of_noEvict c key ((gso value : Nat) : Int) d hne hdf
              omega

/-! String-search lemmas for the listener self-filter. -/

theorem isPfx_append (l r : List Char) : isPfx l (l ++ r) = true := by
  induction l with
  | nil => rfl
  | cons a as ih => simp [isPfx, ih]

theorem findSub_of_isPfx (sub s : List Char) (h : isPfx sub s = true) :
    findSub sub s = some 0 := by
  cases s with
  | nil => simp [findSub, h]
  | cons c t => simp [findSub, h]

theorem pyFind_ne_neg_one (s sub : String) (h : isPfx sub.data s.data = true) :
    pyFind s sub ≠ -1 := by
  unfold pyFind
  rw [findSub_of_isPfx _ _ h]
  decide

theorem isPfx_iff (l : List Char) : ∀ s, isPfx l s = true ↔ l <+: s := by
  induction l with
  | nil =>
      intro s
      simp [isPfx]
  | cons a as ih =>
      intro s
      cases s with
      | nil => simp [isPfx]
      | cons b bs => simp [isPfx, List.cons_prefix_cons, ih bs, and_comm]

theorem findSub_eq_none_iff (sub : List Char) :
    ∀ s, findSub sub s = none ↔ ¬ sub <:+: s := by
  intro s
  induction s with
  | nil =>
      cases sub with
      | nil => simp [findSub, isPfx]
      | cons a t => simp [findSub, isPfx]
  | cons c t ih =>
      cases hp : isPfx sub (c :: t) with
      | true =>
          have hpre := (isPfx_iff sub (c :: t)).mp hp
          simp [findSub, hp, List.infix_cons_iff, hpre]
      | false =>
          have hnp : ¬ sub <+: (c :: t) := by
            intro hc
            rw [(isPfx_iff sub (c :: t)).mpr hc] at hp
            exact absurd hp (by simp)
          simp [findSub, hp, Option.map_eq_none', ih, List.infix_cons_iff, hnp]

theorem pyFind_eq_neg_one_iff (s sub : String) :
    pyFind s sub = -1 ↔ ¬ sub.data <:+: s.data := by
  unfold pyFind
  cases hf : findSub sub.data s.data with
  | some i =>
      constructor
      · intro h
        simp at h
      · intro hni
        have h2 := (findSub_eq_none_iff sub.data s.data).mpr hni
        rw [hf] at h2
        exact absurd h2 (by simp)
  | none =>
      have h2 := (findSub_eq_none_iff sub.data s.data).mp hf
      simp [h2]

/-! Claim theorems. -/

/-- C1: the claim says that under pessimistic posture the outbound value
is stripped from the wire message before send.  In the source the strip
is guarded by `_config.op_level == McCacheLevel.PESSIMISTIC`, an
int-versus-enum-member comparison that is always false, so at
`op_level = 3` a record carrying value 42 is serialised *with* its value
(and, since the CRC guard `op_level >= 5` also fails, with no CRC).  The
second conjunct shows the neutral-posture half of the claim does hold:
the value ships together with the CRC obtained by applying the a85 and
md5 codecs to the pickled value (here instantiated with concrete
stand-in codecs; the crc field is exactly their composition
`a85 (md5 (pickle 42)) = toString [42, 0] = "[42, 0]"`). -/
theorem C1_pessimistic_value_not_stripped :
    buildWireMsg McCacheLevel.PESSIMISTIC.value (fun v => [v]) (fun l => l ++ [0])
        (fun l => toString l) ⟨OpCode.PUT.name, 1, some "default", some 7, some 42⟩ =
      ⟨OpCode.PUT.name, 1, some "default", some 7, none, some 42⟩ ∧
    buildWireMsg McCacheLevel.NEUTRAL.value (fun v => [v]) (fun l => l ++ [0])
        (fun l => toString l) ⟨OpCode.UPD.name, 1, some "default", some 7, some 42⟩ =
      ⟨OpCode.UPD.name, 1, some "default", some 7,
        some (toString ([42, 0] : List Nat)), some 42⟩ := by
  exact ⟨by decide, by decide⟩

/-- C2: the claim says `get_cache` creates a TLRU cache under pessimistic
posture and otherwise returns the previously registered cache.  The
guard `_config.op_level == McCacheLevel.PESSIMISTIC` compares the int 3
to the enum member and is always false, so an LRU cache is created even
at `op_level = 3` (first and second conjuncts: at pessimistic and
neutral levels the freshly created cache is LRU, named, and registered).
The third conjunct shows that a registered *non-empty* cache is returned
unchanged; the fourth shows that the reuse half of the claim fails too
for a registered-but-*empty* cache: `if not cache:` tests Python
truthiness and an empty mapping is falsy, so the registered cache is
replaced by a fresh LRU cache instead of being returned. -/
theorem C2_pessimistic_cache_is_LRU :
    get_cache McCacheLevel.PESSIMISTIC.value 1024 [] (some "default") none =
      (⟨CacheVariant.LRU, 1024, some "default", 0⟩,
       [("default", ⟨CacheVariant.LRU, 1024, some "default", 0⟩)]) ∧
    get_cache McCacheLevel.NEUTRAL.value 2048 [] (some "default") none =
      (⟨CacheVariant.LRU, 2048, some "default", 0⟩,
       [("default", ⟨CacheVariant.LRU, 2048, some "default", 0⟩)]) ∧
    get_cache McCacheLevel.PESSIMISTIC.value 1024
        [("default", ⟨CacheVariant.Other, 9, some "default", 1⟩)] (some "default") none =
      (⟨CacheVariant.Other, 9, some "default", 1⟩,
       [("default", ⟨CacheVariant.Other, 9, some "default", 1⟩)]) ∧
    get_cache McCacheLevel.NEUTRAL.value 2048
        [("default", ⟨CacheVariant.Other, 9, some "default", 0⟩)] (some "default") none =
      (⟨CacheVariant.LRU, 2048, some "default", 0⟩,
       [("default", ⟨CacheVariant.LRU, 2048, some "default", 0⟩)]) := by
  exact ⟨by decide, by decide, by decide, by decide⟩

/-- C3: a value whose size (per the cache's size function) exceeds
`maxsize` makes `__setitem__` raise `ValueError("value too large")`
before any dict, size entry or tally is touched and before anything is
enqueued: the embedding propagates the error with no new cache state and
no records. -/
theorem C3_oversize_set_rejected (gso : Nat → Nat) (pol : Policy) (now : Nat)
    (op_level : Int) (multicast : Bool) (c : PCache) (key value : Nat)
    (h : ((gso value : Nat) : Int) > c.maxsize) :
    setitem gso pol now op_level multicast c key value = .error "value too large" := by
  unfold setitem
  rw [if_pos h]

/-- Witness for C3 at a concrete input: a cache of capacity 3 rejects a
value of size 5. -/
theorem C3_oversize_set_rejected_witness :
    setitem (fun _ => 5) (fun l => (l.headD (0, 0)).1) 0 5 true
        ⟨[], [], 0, 3, some "default"⟩ 1 2 = .error "value too large" :=
  C3_oversize_set_rejected (fun _ => 5) (fun l => (l.headD (0, 0)).1) 0 5 true
    ⟨[], [], 0, 3, some "default"⟩ 1 2 (by decide)

/-- C4: starting from a cache satisfying `currsize ≤ maxsize`, every
completed mutation — set (which first evicts by the replacement policy
until the new value fits), delete, pop, and popitem — yields a cache
still satisfying `currsize ≤ maxsize`. -/
theorem C4_mutations_preserve_capacity (gso : Nat → Nat) (pol : Policy) (now : Nat)
    (op_level : Int) (multicast : Bool) (c : PCache) (key value : Nat) (dflt : Option Nat)
    (hpre : c.currsize ≤ c.maxsize) :
    (∀ r, setitem gso pol now op_level multicast c key value = .ok r →
        r.cache.currsize ≤ r.cache.maxsize) ∧
    (∀ p, delitem now multicast c key = .ok p → p.1.currsize ≤ p.1.maxsize) ∧
    (∀ p, popC now c key dflt = .ok p → p.2.1.currsize ≤ p.2.1.maxsize) ∧
    (∀ q, popitem pol now c = .ok q → q.2.1.currsize ≤ q.2.1.maxsize) := by
  refine ⟨?_, ?_, ?_, ?_⟩
  · intro r h
    exact setitem_ok_bound gso pol now op_level multicast c key value r hpre h
  · intro p h
    have h2 := delitem_ok now multicast c key p h
    rw [h2.1]
    exact h2.2.trans hpre
  · intro p h
    have h2 := popC_ok now c key dflt p h
    rw [h2.1]
    exact h2.2.trans hpre
  · intro q h
    have h2 := popitem_ok pol now c q h
    rw [h2.1]
    exact h2.2.trans hpre

/-- Witness for C4 at a concrete input: a full cache (capacity 1 holding
key 1) accepts key 2 by evicting key 1, and the resulting cache still
satisfies the capacity bound. -/
theorem C4_mutations_preserve_capacity_witness :
    setitem (fun _ => 1) (fun l => (l.headD (0, 0)).1) 0 5 true
        ⟨[(1, 1)], [(1, 1)], 1, 1, some "default"⟩ 2 9 =
      .ok ⟨⟨[(2, 9)], [(2, 1)], 1, 1, some "default"⟩,
           [⟨OpCode.DEL.name, 0, some "default", some 1, none⟩],
           some ⟨OpCode.UPD.name, 0, some "default", some 2, some 9⟩⟩ ∧
    (1 : Int) ≤ (1 : Int) := by
  constructor
  · decide
  · exact (C4_mutations_preserve_capacity (fun _ => 1) (fun l => (l.headD (0, 0)).1) 0 5 true
      ⟨[(1, 1)], [(1, 1)], 1, 1, some "default"⟩ 2 9 none (by decide)).1
      ⟨⟨[(2, 9)], [(2, 1)], 1, 1, some "default"⟩,
        [⟨OpCode.DEL.name, 0, some "default", some 1, none⟩],
        some ⟨OpCode.UPD.name, 0, some "default", some 2, some 9⟩⟩ (by decide)

/-- C5: the claim says a mutation with the propagate flag false never
enqueues an outbound record.  But the eviction path runs
`popitem -> pop -> del self[key]`, and that `del` calls `__delitem__`
with `multicast` at its default `True`: a `set` with `multicast = False`
on a full cache (capacity 1 holding key 1) commits, enqueues *no*
posture record (`postRec = none`, as claimed), yet enqueues a `DEL`
record for the evicted key 1 — so a record is enqueued after all. -/
theorem C5_propagate_false_still_enqueues_on_eviction :
    setitem (fun _ => 1) (fun l => (l.headD (0, 0)).1) 5 5 false
        ⟨[(1, 10)], [(1, 1)], 1, 1, some "default"⟩ 2 20 =
      .ok ⟨⟨[(2, 20)], [(2, 1)], 1, 1, some "default"⟩,
           [⟨OpCode.DEL.name, 5, some "default", some 1, none⟩], none⟩ := by
  decide

/-- C6: the redundancy schedule of `_send_fragment`, each datagram paired
with the sleep (in ms) executed immediately before it: 2 datagrams and
no delay at optimistic (7); 3 datagrams with a 1 ms delay before the
third at neutral (5); 4 datagrams with a 1 ms then a 3 ms delay at
pessimistic (3). -/
theorem C6_redundancy_schedule (fragment : List Nat) :
    send_fragment McCacheLevel.OPTIMISTIC.value fragment =
      [(0, fragment), (0, fragment)] ∧
    send_fragment McCacheLevel.NEUTRAL.value fragment =
      [(0, fragment), (0, fragment), (1, fragment)] ∧
    send_fragment McCacheLevel.PESSIMISTIC.value fragment =
      [(0, fragment), (0, fragment), (1, fragment), (3, fragment)] := by
  refine ⟨?_, ?_, ?_⟩ <;> norm_num [send_fragment, McCacheLevel.value]

/-- C7: the claim says that under pessimistic posture a non-ACK,
not-yet-pending operation installs a pending-ack entry (fragment list,
per-member unacked set and retry budget) and is then transmitted.  In
the source `_make_pending_value` computes the fragment count by true
division, producing a `float`, and `struct.pack` raises `struct.error`
on it for any non-empty payload; the worker's broad `except` swallows
the exception, so at `op_level = 3` a dequeued `DEL` record leads to *no*
pending entry and *no* transmission — only an error log. -/
theorem C7_pending_install_always_raises :
    multicasterStep 3 1472 (fun v => [v]) (fun l => l) (fun _ => "")
        (fun _ => [0, 1, 2]) ["10.0.0.7"] [] ⟨"DEL", 1, some "default", some 0, none⟩ =
      ⟨[], [], true⟩ ∧
    make_pending_value [0, 1, 2] 1472 ["10.0.0.7"] =
      .error "struct.error: required argument is not an integer" := by
  exact ⟨by decide, by decide⟩

/-- C8: the claim says an invalid or unassigned `MCCACHE_MULTICAST_IP`
falls back to the default `224.0.0.3` with a warning.  The source
assigns `_config.mc_gip` from the environment *before* validating and
never restores it, so while the warning is logged (`warned = true`), the
effective group address stays at the invalid value: `225.0.0.1` (not a
224 address) and `224.0.0.5` (not in the whitelist) are both kept.  The
third conjunct shows the default applies only when the variable is
absent. -/
theorem C8_invalid_multicast_ip_not_defaulted :
    validateMulticastIP (some "225.0.0.1") = ⟨"225.0.0.1", 4000, true⟩ ∧
    validateMulticastIP (some "224.0.0.5") = ⟨"224.0.0.5", 4000, true⟩ ∧
    validateMulticastIP none = ⟨"224.0.0.3", 4000, false⟩ := by
  exact ⟨by decide, by decide, by decide⟩

/-- C9: a datagram whose sender address is the local IPv4 address is
ignored by the listener: the local identity `ip:pid` has the sender as a
prefix, so `SRC_IP_ADD.find(frm)` is not `-1`, the message is never
dispatched to `_decode_message` (hence no cache mutation and no `ACK`
enqueue, which happen only inside that call) and the membership table is
untouched. -/
theorem C9_own_messages_never_dispatched (ip : String) (pid : Nat)
    (members : List (String × Nat)) (msg : WireMsg) :
    listenerStep (SRC_IP_ADD ip pid) members msg ip = ⟨members, none⟩ := by
  have hd : (SRC_IP_ADD ip pid).data = ip.data ++ (":".data ++ (toString pid).data) := by
    show ((ip ++ ":") ++ toString pid).data = _
    rw [String.data_append (ip ++ ":") (toString pid), String.data_append ip ":",
      List.append_assoc]
  have hp : isPfx ip.data (SRC_IP_ADD ip pid).data = true := by
    rw [hd]
    exact isPfx_append ip.data _
  unfold listenerStep
  rw [if_neg (pyFind_ne_neg_one (SRC_IP_ADD ip pid) ip hp)]

/-- C10: the listener self-filter is a substring test — a received
message is dispatched iff the sender string is not a substring of the
local identity `ip:pid` — and consequently the distinct peer `10.0.0.1`
is silently dropped by a local node `10.0.0.11` (its address is a
substring of `10.0.0.11:1234`): the membership table is returned
unchanged, so that peer never enters it. -/
theorem C10_self_filter_is_substring_test :
    (∀ (src : String) (members : List (String × Nat)) (msg : WireMsg) (frm : String),
        (listenerStep src members msg frm).dispatch.isSome = true ↔
          ¬ frm.data <:+: src.data) ∧
    (∀ (members : List (String × Nat)) (msg : WireMsg),
        listenerStep (SRC_IP_ADD "10.0.0.11" 1234) members msg "10.0.0.1" =
          ⟨members, none⟩) := by
  constructor
  · intro src members msg frm
    unfold listenerStep
    by_cases hf : pyFind src frm = -1
    · rw [if_pos hf]
      simp [(pyFind_eq_neg_one_iff src frm).mp hf]
    · rw [if_neg hf]
      have hin : frm.data <:+: src.data := by
        by_contra hni
        exact hf ((pyFind_eq_neg_one_iff src frm).mpr hni)
      simp [hin]
  · intro members msg
    unfold listenerStep
    rw [if_neg (by decide)]

end McCache
